import Mathlib

/-!
Formalisation of the d3-demo area-chart engine (Angular + d3, TypeScript).

Sources embedded here:
  * `src/app/area-chart/area-chart.component.ts` — the charting engine:
    value accessors, scale-domain computation, adaptive tick planning,
    the update/render cycle, and the pointer-interaction (nearest-point)
    logic;
  * `src/app/area-chart/area-chart.model.ts` — the data model and the
    default configuration;
  * `src/app/app.ts` — the time-range filter `filterDataByRange`.

Modelling conventions: JavaScript numbers are rationals (`ℚ`), `Date`
time values are integer milliseconds since the epoch (`Int`), and an
invalid `Date` (`NaN` time value) is `none : Option Int`; comparisons
against `NaN` are false, as in JavaScript.  Machine floating point is
idealised by exact rational arithmetic.
-/

namespace D3Demo

/-- Values a data-point field can hold: a JavaScript number (`typeof val
=== 'number'`, modelled as a rational), a `Date`, or any other value. -/
inductive JSVal where
  | num (v : ℚ)
  | date (ms : Int)
  | other
deriving DecidableEq, Repr

/-- Interface `AreaChartDataPoint` (area-chart.model.ts:5): a `date` plus
dynamic named fields.  An invalid `Date` is modelled as `none`. -/
structure DataPoint where
  date : Option Int
  fields : List (String × JSVal)
deriving DecidableEq, Repr

/-- Property read `d[key]` on the dynamic fields of a data point. -/
def lookupField (d : DataPoint) (k : String) : Option JSVal :=
  d.fields.lookup k

/-- Helper `getValue` (area-chart.component.ts:265): returns `d[key]`
when `typeof val === 'number'`, otherwise `0`. -/
def getValue (d : DataPoint) (key : String) : ℚ :=
  match lookupField d key with
  | some (.num v) => v
  | _ => 0

/-- Test for `typeof val === 'number'`. -/
def isNum : JSVal → Bool
  | .num _ => true
  | _ => false

/-- Whether the field `key` of `d` is absent or holds a non-number. -/
def nonNumeric (d : DataPoint) (key : String) : Bool :=
  match lookupField d key with
  | some (.num _) => false
  | _ => true

/-- Interface `SeriesConfig` (area-chart.model.ts:15). -/
structure SeriesConfig where
  name : String
  color : String
  key : String
deriving DecidableEq, Repr

/-- Margin record of `AreaChartConfig` (area-chart.model.ts:37). -/
structure Margin where
  top : ℚ
  right : ℚ
  bottom : ℚ
  left : ℚ
deriving DecidableEq, Repr

/-- Interface `AreaChartConfig` (area-chart.model.ts:27).  Optional fields
are `Option`s; the optional booleans `autoMinY`, `showCrosshair` and
`tooltipAnimation` are plain `Bool`s because the code only tests their
truthiness (absent ≡ false). -/
structure AreaChartConfig where
  series : List SeriesConfig
  dateFormat : String
  tooltipDateFormat : Option String
  showLegend : Bool
  margin : Margin
  yAxisFormat : Option (ℚ → String)
  autoMinY : Bool
  showCrosshair : Bool
  tooltipAnimation : Bool

/-- Constant `DEFAULT_CHART_CONFIG` (area-chart.model.ts:51). -/
def defaultChartConfig : AreaChartConfig :=
  ⟨[⟨ "Value", "#8B5CF6", "value"⟩], "%b %d", none, true,
    ⟨20, 30, 40, 50⟩, none, false, true, true⟩

/-- Rounding of `toFixed(0)` as d3's `format(',.0f')` applies it: nearest
integer, ties toward the larger value. -/
def jsRound0 (v : ℚ) : Int :=
  ⌊v + 1 / 2⌋

/-- Grouping of a reversed digit list in blocks of three, comma-separated
(the `,` modifier of `format(',.0f')`). -/
def groupRev : List Char → List Char
  | [] => []
  | [a] => [a]
  | [a, b] => [a, b]
  | [a, b, c] => [a, b, c]
  | a :: b :: c :: d :: rest => a :: b :: c :: ',' :: groupRev (d :: rest)

/-- d3 `format(',.0f')`: round to an integer and group the digits in
thousands. -/
def fmtThousands (v : ℚ) : String :=
  let n := jsRound0 v
  let grouped := (groupRev (toString n.natAbs).toList.reverse).reverse
  (if n < 0 then "-" else "") ++ String.mk grouped

/-- Method `getSeriesValue` (area-chart.component.ts:83): the tooltip text
for one series at the hovered point — the value run through
`config.yAxisFormat` (or the default `format(',.0f')`) when it is a
number, and the empty string otherwise (also when nothing is hovered). -/
def getSeriesValue (cfg : AreaChartConfig) (hovered : Option DataPoint)
    (key : String) : String :=
  match hovered with
  | none => ""
  | some d =>
    match lookupField d key with
    | some (.num v) =>
      match cfg.yAxisFormat with
      | some f => f v
      | none => fmtThousands v
    | _ => ""

/-- Computed `tooltipDate` (area-chart.component.ts:76), abstracted over
`timeFormat`: the format string and date value the code hands to
`timeFormat`, or `none` when no point is hovered (the code returns `''`).
The code passes `this.config().dateFormat` (line 79). -/
def tooltipDate (cfg : AreaChartConfig) (hovered : Option DataPoint) :
    Option (String × Option Int) :=
  match hovered with
  | none => none
  | some d => some (cfg.dateFormat, d.date)

/-- Format the spec and the model file's doc comment prescribe for the
tooltip date: `tooltipDateFormat` when present, else `dateFormat`
(area-chart.model.ts:32-33). -/
def specTooltipFormat (cfg : AreaChartConfig) : String :=
  cfg.tooltipDateFormat.getD cfg.dateFormat

/-- JavaScript `<` between a possibly invalid `Date` and a valid one:
comparisons against `NaN` are false. -/
def jsDateLt (a : Option Int) (b : Int) : Bool :=
  match a with
  | some t => decide (t < b)
  | none => false

/-- JavaScript `>=` between a possibly invalid `Date` and a valid one. -/
def jsDateGe (a : Option Int) (b : Int) : Bool :=
  match a with
  | some t => decide (b ≤ t)
  | none => false

/-- Comparison `x0 - d0.date > d1.date - x0` of `handleMouseMove`
(area-chart.component.ts:498), false when either date is invalid. -/
def jsGtDiff (x0 : Int) (t0 t1 : Option Int) : Bool :=
  match t0, t1 with
  | some a, some b => decide (x0 - a > b - x0)
  | _, _ => false

/-- Binary-search loop of d3's `bisector(...).left`: narrows `[lo, hi)`
to the first index at which `P` (the comparison `f(a[mid]) < x`) is
false, returning `hi` when it never is.  The explicit fuel only bounds
the iteration count and is always given `≥ hi - lo`, where the loop has
terminated. -/
def bisectLoop : Nat → (Nat → Bool) → Nat → Nat → Nat
  | 0, _, lo, _ => lo
  | fuel + 1, P, lo, hi =>
    if lo < hi then
      if P ((lo + hi) / 2) then bisectLoop fuel P ((lo + hi) / 2 + 1) hi
      else bisectLoop fuel P lo ((lo + hi) / 2)
    else lo

/-- Comparison the bisector applies at index `j`: `f(a[j]) < x0` with
`f = (d) => d.date` (false out of range, never reached in range). -/
def bisectPred (data : List DataPoint) (x0 : Int) (j : Nat) : Bool :=
  match data.get? j with
  | some d => jsDateLt d.date x0
  | none => false

/-- Call `bisector((d) => d.date).left(data, x0, 1)` of `handleMouseMove`
(area-chart.component.ts:485-487). -/
def dateBisectLeft (data : List DataPoint) (x0 : Int) : Nat :=
  bisectLoop (data.length + 1) (bisectPred data x0) 1 data.length

/-- Nearest-point selection of `handleMouseMove`
(area-chart.component.ts:484-500): bisect the sorted data at the
pointer-derived date `x0`, then pick between the neighbours `d0` and
`d1`; `none` models the `!d0 && !d1` early return. -/
def nearestPoint (data : List DataPoint) (x0 : Int) : Option DataPoint :=
  let i := dateBisectLeft data x0
  match data.get? (i - 1), data.get? i with
  | none, none => none
  | none, some d1 => some d1
  | some d0, none => some d0
  | some d0, some d1 => if jsGtDiff x0 d0.date d1.date then some d1 else some d0

/-- Time value of a data point's date, read under the assumption that the
date is valid (every statement using it hypothesises validity). -/
def ptTime (d : DataPoint) : Int :=
  d.date.getD 0

/-- Hover-related state of one chart instance: the signals of
`AreaChartComponent` the interaction claims are about (lines 49-67),
together with the data and configuration snapshots the handlers read. -/
structure ChartState where
  data : List DataPoint
  config : AreaChartConfig
  hoveredData : Option DataPoint

/-- Computed signal `tooltipVisible` (area-chart.component.ts:67):
`this.hoveredData() !== null`. -/
def tooltipVisible (s : ChartState) : Bool :=
  s.hoveredData.isSome

/-- Events that touch the interaction state: pointer moves (carrying the
pointer-derived query date `x0 = xScale.invert(mouseX)`), pointer leave,
and data or config replacement. -/
inductive ChartEvent where
  | mouseMove (x0 : Int)
  | mouseLeave
  | dataChange (newData : List DataPoint)
  | configChange (newConfig : AreaChartConfig)

/-- One event step of the component.  `mouseMove` runs `handleMouseMove`
(line 472: sets `hoveredData` to the nearest point; the `!d0 && !d1`
early return leaves the state untouched); `mouseLeave` runs the
`mouseleave` handler (line 462: `this.hoveredData.set(null)`);
`dataChange`/`configChange` run the `effect` → `updateChart` path
(lines 107-113 and 189-215), which clears and redraws the svg but never
writes `hoveredData`. -/
def step (s : ChartState) : ChartEvent → ChartState
  | .mouseMove x0 =>
    match nearestPoint s.data x0 with
    | some d => ⟨s.data, s.config, some d⟩
    | none => s
  | .mouseLeave => ⟨s.data, s.config, none⟩
  | .dataChange nd => ⟨nd, s.config, s.hoveredData⟩
  | .configChange nc => ⟨s.data, nc, s.hoveredData⟩

/-- JavaScript `Math.max(x, y)` on numbers that may be `-Infinity`
(modelled as `none`). -/
def jsMax : Option ℚ → Option ℚ → Option ℚ
  | some a, some b => some (max a b)
  | some a, none => some a
  | none, b => b

/-- JavaScript `Math.min(x, y)` on numbers that may be `+Infinity`
(modelled as `none`). -/
def jsMin : Option ℚ → Option ℚ → Option ℚ
  | some a, some b => some (min a b)
  | some a, none => some a
  | none, b => b

/-- Series keys `config.series.map((s) => s.key)`
(area-chart.component.ts:262). -/
def seriesKeys (cfg : AreaChartConfig) : List String :=
  cfg.series.map (fun s => s.key)

/-- Spread `Math.max(...seriesKeys.map((key) => getValue(d, key)))`
(area-chart.component.ts:309); `none` is the `-Infinity` of an empty
series list. -/
def pointSeriesMax (d : DataPoint) (ks : List String) : Option ℚ :=
  ks.foldr (fun k m => jsMax (some (getValue d k)) m) none

/-- Spread `Math.min(...seriesKeys.map((key) => getValue(d, key)))`
(area-chart.component.ts:310); `none` is the `+Infinity` of an empty
series list. -/
def pointSeriesMin (d : DataPoint) (ks : List String) : Option ℚ :=
  ks.foldr (fun k m => jsMin (some (getValue d k)) m) none

/-- Expression `max(data, ...) ?? 0` (area-chart.component.ts:309): d3's
`max` of the per-point maxima; `?? 0` fires only for an empty dataset,
where d3 `max` is `undefined`. -/
def yMaxOf (data : List DataPoint) (ks : List String) : Option ℚ :=
  if data.isEmpty then some 0
  else data.foldr (fun d m => jsMax (pointSeriesMax d ks) m) none

/-- Expression `min(data, ...) ?? 0` (area-chart.component.ts:310). -/
def yMinOf (data : List DataPoint) (ks : List String) : Option ℚ :=
  if data.isEmpty then some 0
  else data.foldr (fun d m => jsMin (pointSeriesMin d ks) m) none

/-- Rounding step of lines 319-322: `magnitude = 10 ** floor(log10 v)`
and `floor(v / magnitude) * magnitude`; `Int.log 10 v` is
`Math.floor(Math.log10(v))` for `v > 0`. -/
def niceFloor (v : ℚ) : ℚ :=
  let magnitude : ℚ := (10 : ℚ) ^ (Int.log 10 v)
  (⌊v / magnitude⌋ : ℚ) * magnitude

/-- Computation of `yAxisMin` (area-chart.component.ts:312-323): `0`
unless `autoMinY` is set and the data minimum is positive, in which case
start 10% of the value range below the minimum, clamp to `≥ 0`, and
round a still-positive result down to a nice number. -/
def yAxisMinOf (autoMinY : Bool) (yMin yMax : ℚ) : ℚ :=
  if autoMinY && decide (0 < yMin) then
    let range := yMax - yMin
    let v := max 0 (yMin - range * (1 / 10))
    if 0 < v then niceFloor v else v
  else 0

/-- Vertical scale domain `[yAxisMin, yMax * 1.05]`
(area-chart.component.ts:325-326).  `none` stands for the non-finite
domain JavaScript computes when the series list is empty (the maxima are
infinite); every claim supplies a nonempty series list. -/
def yDomainOf (data : List DataPoint) (cfg : AreaChartConfig) :
    Option (ℚ × ℚ) :=
  match yMaxOf data (seriesKeys cfg), yMinOf data (seriesKeys cfg) with
  | some yMax, some yMin =>
    some (yAxisMinOf cfg.autoMinY yMin yMax, yMax * (21 / 20))
  | _, _ => none

/-- One granularity of `getOptimalTimeInterval`'s candidate table,
identified by its d3 time interval. -/
inductive TimeIntervalTag where
  | hour4 | day1 | day2 | week1 | week2 | month1
  | month2 | month3 | year1 | year2 | year5 | year10
deriving DecidableEq, Repr

/-- Entry of the candidate table (area-chart.component.ts:572-651):
day-span threshold (`none` models `Infinity`), the time interval
(`safeInterval` never takes its fallback for these positive steps), the
display format, and the estimated tick count for the current span. -/
structure IntervalEntry where
  threshold : Option ℚ
  interval : TimeIntervalTag
  fmt : String
  ticksPerUnit : ℚ
deriving DecidableEq, Repr

/-- Candidate table `intervals` (area-chart.component.ts:577-651), from
finest to coarsest granularity. -/
def intervalsTable (days months years : ℚ) : List IntervalEntry :=
  [⟨some 2, .hour4, "%H:%M", 6⟩,
   ⟨some 7, .day1, "%b %d", days⟩,
   ⟨some 14, .day2, "%b %d", days / 2⟩,
   ⟨some 30, .week1, "%b %d", days / 7⟩,
   ⟨some 90, .week2, "%b %d", days / 14⟩,
   ⟨some 180, .month1, "%b", months⟩,
   ⟨some 365, .month2, "%b", months / 2⟩,
   ⟨some 730, .month3, "%b %Y", months / 3⟩,
   ⟨none, .year1, "%Y", years⟩,
   ⟨none, .year2, "%Y", years / 2⟩,
   ⟨none, .year5, "%Y", years / 5⟩,
   ⟨none, .year10, "%Y", years / 10⟩]

/-- Condition `days <= config.threshold` (true against `Infinity`). -/
def daysLe (days : ℚ) (threshold : Option ℚ) : Bool :=
  match threshold with
  | none => true
  | some t => decide (days ≤ t)

/-- Eligibility test of the table walk (area-chart.component.ts:655):
`days <= config.threshold && config.ticksPerUnit <= maxTicks`. -/
def entryFits (days maxTicks : ℚ) (e : IntervalEntry) : Bool :=
  daysLe days e.threshold && decide (e.ticksPerUnit ≤ maxTicks)

/-- Method `getOptimalTimeInterval` (area-chart.component.ts:553-663):
convert the span to days/months/years, walk the table in order and
return the first entry that fits, falling back to the last (10-year)
entry. -/
def getOptimalTimeInterval (timeRangeMs maxTicks : ℚ) :
    TimeIntervalTag × String :=
  let days := timeRangeMs / 86400000
  let months := days / 30
  let years := days / 365
  let tbl := intervalsTable days months years
  match tbl.find? (entryFits days maxTicks) with
  | some e => (e.interval, e.fmt)
  | none =>
    match tbl.getLast? with
    | some e => (e.interval, e.fmt)
    | none => (.year10, "%Y")

/-- Tick budget of `createResponsiveXAxis` (area-chart.component.ts:
537-539): `Math.max(2, Math.floor(width / 80))`. -/
def maxTicksOf (width : ℚ) : Int :=
  max 2 ⌊width / 80⌋

/-- Days since the Unix epoch of the proleptic-Gregorian civil date
`y-m-d` (`m` 1-based), by Howard Hinnant's `days_from_civil`; this is
the calendar arithmetic behind the JavaScript `Date` constructor.  A
day value outside the month rolls over, as in JavaScript. -/
def daysFromCivil (y m d : Int) : Int :=
  let yy := if m ≤ 2 then y - 1 else y
  let era := Int.fdiv yy 400
  let yoe := yy - era * 400
  let mp := if 2 < m then m - 3 else m + 9
  let doy := Int.fdiv (153 * mp + 2) 5 + d - 1
  let doe := yoe * 365 + Int.fdiv yoe 4 - Int.fdiv yoe 100 + doy
  era * 146097 + doe - 719468

/-- Constructor `new Date(year, monthIndex, day)` as a millisecond time
value (midnight; the local-time offset is abstracted away, and the data
it is compared against uses the same convention).  `monthIndex` is
0-based and normalised into the year as JavaScript does. -/
def jsDateMs (year monthIndex day : Int) : Int :=
  86400000 * daysFromCivil (year + Int.fdiv monthIndex 12)
    (Int.emod monthIndex 12 + 1) day

/-- Union type `TimeRange` (area-chart.model.ts:63). -/
inductive TimeRange where
  | all | twoY | oneY | ytd
deriving DecidableEq, Repr

/-- Method `filterDataByRange` (app.ts:77-100).  The code reads `now`
through `getFullYear()`, `getMonth()` and `getDate()`, so the model
takes those three components directly. -/
def filterDataByRange (data : List DataPoint) (range : TimeRange)
    (nowYear nowMonth nowDate : Int) : List DataPoint :=
  match range with
  | .all => data
  | .twoY =>
    data.filter (fun d => jsDateGe d.date (jsDateMs (nowYear - 2) nowMonth nowDate))
  | .oneY =>
    data.filter (fun d => jsDateGe d.date (jsDateMs (nowYear - 1) nowMonth nowDate))
  | .ytd =>
    data.filter (fun d => jsDateGe d.date (jsDateMs nowYear 0 1))

/-- Accumulator of d3 `extent` for the minimum: skip missing values. -/
def extMin : Option Int → Option Int → Option Int
  | none, m => m
  | some t, none => some t
  | some t, some u => some (min t u)

/-- Accumulator of d3 `extent` for the maximum: skip missing values. -/
def extMax : Option Int → Option Int → Option Int
  | none, m => m
  | some t, none => some t
  | some t, some u => some (max t u)

/-- Call `extent(data, (d) => d.date)` (area-chart.component.ts:299):
least and greatest valid dates; an invalid date never compares true and
is skipped, and a bound is `none` (`undefined`) when no valid date
exists. -/
def dateExtent (data : List DataPoint) : Option Int × Option Int :=
  (data.foldr (fun d m => extMin d.date m) none,
   data.foldr (fun d m => extMax d.date m) none)

/-- Message of the `throw new Error('Invalid date extent')` at
area-chart.component.ts:301. -/
def invalidDateExtentMsg : String :=
  "Invalid date extent"

/-- Geometry a successful draw leaves in the svg, abstracted to its
scale domains and the per-series area+line pairs (one per configured
series, in order). -/
structure Geometry where
  xDomain : Int × Int
  yDomain : Option (ℚ × ℚ)
  seriesDrawn : List String
deriving DecidableEq, Repr

/-- Method `renderChart` (area-chart.component.ts:258-403): throws when
either bound of the date extent is `undefined` (line 300), otherwise
builds the scales and draws every series. -/
def renderChart (data : List DataPoint) (cfg : AreaChartConfig) :
    Except String Geometry :=
  match dateExtent data with
  | (some lo, some hi) => .ok ⟨(lo, hi), yDomainOf data cfg, seriesKeys cfg⟩
  | _ => .error invalidDateExtentMsg

/-- Svg content after an update: the `renderEmptyState` placeholder, the
`renderErrorState` placeholder, a cleared svg with nothing drawn, or a
drawn chart. -/
inductive Display where
  | empty
  | errorMsg
  | blank
  | chart (g : Geometry)
deriving DecidableEq, Repr

/-- Method `updateChart` (area-chart.component.ts:189-215) as a function
from the previous svg content to the new one: a missing svg returns
early; otherwise the svg is cleared, fewer than `MIN_DATA_POINTS = 2`
points render the empty state, non-positive plot dimensions draw
nothing, and `renderChart` is tried with its failure caught and turned
into the error state. -/
def updateChart (svg : Option Display) (data : List DataPoint)
    (cfg : AreaChartConfig) (width height : ℚ) : Option Display :=
  match svg with
  | none => none
  | some _ =>
    if data.length < 2 then some .empty
    else if width ≤ 0 ∨ height ≤ 0 then some .blank
    else
      match renderChart data cfg with
      | .ok g => some (.chart g)
      | .error _ => some .errorMsg

/-- Method `handleResize` (area-chart.component.ts:175-187): on a
missing svg nothing happens; otherwise the plot dimensions are
recomputed from the measured rect minus margins, clamped to `≥ 0`, and
`updateChart` runs.  Returns the new dimensions and svg content. -/
def handleResize (svg : Option Display) (data : List DataPoint)
    (cfg : AreaChartConfig) (rectW rectH : ℚ) :
    Option ((ℚ × ℚ) × Option Display) :=
  match svg with
  | none => none
  | some s =>
    let w := max 0 (rectW - cfg.margin.left - cfg.margin.right)
    let h := max 0 (rectH - cfg.margin.top - cfg.margin.bottom)
    some ((w, h), updateChart (some s) data cfg w h)

/-- Y pixel the rendered line and area use for a point of one series
(area-chart.component.ts:348, 359): `yScale(getValue(d, series.key))`. -/
def lineY (yScale : ℚ → ℚ) (d : DataPoint) (key : String) : ℚ :=
  yScale (getValue d key)

/-- Configuration of the net-worth chart (app.ts:57-65): yearly
`dateFormat`, a `tooltipDateFormat` override of `%B %Y`, `autoMinY` on
(its EUR `yAxisFormat` is irrelevant to the date claims and omitted). -/
def netWorthLikeConfig : AreaChartConfig :=
  ⟨[⟨ "Vermogen", "#8B5CF6", "totalEur"⟩], "%Y", some ( "%B %Y"), false,
    ⟨20, 20, 30, 80⟩, none, true, true, false⟩

/-- Claim C1, evidence of the code bug: on the net-worth configuration,
whose `tooltipDateFormat` is `%B %Y`, the hovered point's tooltip date is
nevertheless formatted with `dateFormat = %Y` — `tooltipDate` never reads
`tooltipDateFormat`, contradicting area-chart.model.ts:32-33 and the
spec's "defaults to dateFormat" description of an override. -/
theorem tooltipDate_uses_dateFormat_only :
    (tooltipDate netWorthLikeConfig
        (some ⟨some 1577836800000, [( "totalEur", .num 147995)]⟩)).map Prod.fst
        = some ( "%Y")
      ∧ specTooltipFormat netWorthLikeConfig = "%B %Y"
      ∧ specTooltipFormat netWorthLikeConfig ≠ "%Y" := by
  refine ⟨rfl, rfl, ?_⟩
  decide

/-- Bounds of the bisector loop: with enough fuel the result stays inside
`[lo, hi]` whenever `lo ≤ hi`. -/
theorem bisectLoop_bounds (P : Nat → Bool) :
    ∀ fuel lo hi, lo ≤ hi → hi - lo ≤ fuel →
      lo ≤ bisectLoop fuel P lo hi ∧ bisectLoop fuel P lo hi ≤ hi := by
  intro fuel
  induction fuel with
  | zero =>
    intro lo hi h1 _
    exact ⟨Nat.le_refl lo, h1⟩
  | succ n ih =>
    intro lo hi h1 h2
    by_cases hlt : lo < hi
    · cases hp : P ((lo + hi) / 2) with
      | true =>
        have h := ih ((lo + hi) / 2 + 1) hi (by omega) (by omega)
        simp only [bisectLoop, if_pos hlt, hp, if_true]
        omega
      | false =>
        have h := ih lo ((lo + hi) / 2) (by omega) (by omega)
        simp only [bisectLoop, if_pos hlt, hp, Bool.false_eq_true, if_false]
        omega
    · simp only [bisectLoop, if_neg hlt]
      exact ⟨Nat.le_refl lo, h1⟩

/-- Index bounds of the source's bisection call on a nonempty dataset. -/
theorem dateBisectLeft_bounds (data : List DataPoint) (x0 : Int)
    (hne : data ≠ []) :
    1 ≤ dateBisectLeft data x0 ∧ dateBisectLeft data x0 ≤ data.length := by
  have hpos : 0 < data.length := List.length_pos.mpr hne
  exact bisectLoop_bounds _ (data.length + 1) 1 data.length hpos (by omega)

/-- On a nonempty dataset the nearest-point lookup always returns a
point (`handleMouseMove`'s early return never fires). -/
theorem nearestPoint_isSome (data : List DataPoint) (x0 : Int)
    (hne : data ≠ []) : ∃ d, nearestPoint data x0 = some d := by
  obtain ⟨h1, h2⟩ := dateBisectLeft_bounds data x0 hne
  have hpos : 0 < data.length := List.length_pos.mpr hne
  have hlt : dateBisectLeft data x0 - 1 < data.length := by omega
  simp only [nearestPoint]
  rw [List.get?_eq_get hlt]
  cases data.get? (dateBisectLeft data x0) with
  | none => exact ⟨_, rfl⟩
  | some d1 =>
    dsimp only
    by_cases hgt :
        jsGtDiff x0 (data.get ⟨dateBisectLeft data x0 - 1, hlt⟩).date d1.date = true
    · exact ⟨d1, by rw [if_pos hgt]⟩
    · exact ⟨data.get ⟨dateBisectLeft data x0 - 1, hlt⟩, by rw [if_neg hgt]⟩

/-- Claim C2, amended: the hovered point (and with it tooltip
visibility) is cleared on mouse-leave and set synchronously on every
mouse-move over a rendered, nonempty dataset; but a data or config
change leaves the interaction state unchanged — it is not reset. -/
theorem interactionState_lifecycle (s : ChartState) :
    (step s .mouseLeave).hoveredData = none
      ∧ (∀ x0 : Int, s.data ≠ [] → ∃ d, nearestPoint s.data x0 = some d
          ∧ (step s (.mouseMove x0)).hoveredData = some d)
      ∧ (∀ nd, (step s (.dataChange nd)).hoveredData = s.hoveredData)
      ∧ (∀ nc, (step s (.configChange nc)).hoveredData = s.hoveredData)
      ∧ (∀ e, tooltipVisible (step s e) = (step s e).hoveredData.isSome) := by
  refine ⟨rfl, ?_, fun nd => rfl, fun nc => rfl, fun e => rfl⟩
  intro x0 hne
  obtain ⟨d, hd⟩ := nearestPoint_isSome s.data x0 hne
  exact ⟨d, hd, by simp [step, hd]⟩

/-- First point of the interaction counterexample's dataset. -/
def cexPointA : DataPoint :=
  ⟨some 0, [( "value", .num 1)]⟩

/-- Second point of the interaction counterexample's dataset. -/
def cexPointB : DataPoint :=
  ⟨some 86400000, [( "value", .num 2)]⟩

/-- Claim C2, counterexample: after a mouse move sets the hovered point,
a subsequent data change leaves it set and the tooltip visible — the
interaction state is not reset to none on a data change. -/
theorem hover_survives_data_change :
    (step (step ⟨[cexPointA, cexPointB], defaultChartConfig, none⟩
          (.mouseMove 1000)) (.dataChange [])).hoveredData = some cexPointA
      ∧ tooltipVisible (step (step ⟨[cexPointA, cexPointB],
          defaultChartConfig, none⟩ (.mouseMove 1000)) (.dataChange []))
          = true := by
  constructor
  · decide
  · decide

/-- Claim C7, amended: a non-numeric value for a configured series key
is read as zero by `getValue` — and hence by the scale-domain
computation and the rendered geometry — and is never rejected; the
tooltip's per-series line, however, shows the empty string for it
rather than a formatted zero. -/
theorem nonNumeric_read_as_zero (d : DataPoint) (key : String)
    (cfg : AreaChartConfig) (h : nonNumeric d key = true) :
    getValue d key = 0
      ∧ (∀ ks, pointSeriesMax d (key :: ks)
          = jsMax (some 0) (pointSeriesMax d ks))
      ∧ (∀ ks, pointSeriesMin d (key :: ks)
          = jsMin (some 0) (pointSeriesMin d ks))
      ∧ (∀ yScale : ℚ → ℚ, lineY yScale d key = yScale 0)
      ∧ getSeriesValue cfg (some d) key = "" := by
  have hv : getValue d key = 0 := by
    unfold nonNumeric at h
    unfold getValue
    cases hl : lookupField d key with
    | none => rfl
    | some v =>
      cases v with
      | num q => rw [hl] at h; simp at h
      | date ms => rfl
      | other => rfl
  refine ⟨hv, ?_, ?_, ?_, ?_⟩
  · intro ks
    simp only [pointSeriesMax, List.foldr_cons, hv]
  · intro ks
    simp only [pointSeriesMin, List.foldr_cons, hv]
  · intro yScale
    rw [lineY, hv]
  · unfold nonNumeric at h
    cases hl : lookupField d key with
    | none => simp [getSeriesValue, hl]
    | some v =>
      cases v with
      | num q => rw [hl] at h; simp at h
      | date ms => simp [getSeriesValue, hl]
      | other => simp [getSeriesValue, hl]

/-- Witness for C7's amended theorem at a concrete point whose series
field holds a non-number. -/
theorem nonNumeric_read_as_zero_witness :
    getValue ⟨some 0, [( "value", JSVal.other)]⟩ "value" = 0
      ∧ (∀ ks, pointSeriesMax ⟨some 0, [( "value", JSVal.other)]⟩ ( "value" :: ks)
          = jsMax (some 0) (pointSeriesMax ⟨some 0, [( "value", JSVal.other)]⟩ ks))
      ∧ (∀ ks, pointSeriesMin ⟨some 0, [( "value", JSVal.other)]⟩ ( "value" :: ks)
          = jsMin (some 0) (pointSeriesMin ⟨some 0, [( "value", JSVal.other)]⟩ ks))
      ∧ (∀ yScale : ℚ → ℚ,
          lineY yScale ⟨some 0, [( "value", JSVal.other)]⟩ "value" = yScale 0)
      ∧ getSeriesValue defaultChartConfig
          (some ⟨some 0, [( "value", JSVal.other)]⟩) "value" = "" :=
  nonNumeric_read_as_zero ⟨some 0, [( "value", JSVal.other)]⟩ "value"
    defaultChartConfig (by decide)

/-- Claim C7, counterexample: the tooltip displays the empty string for
a non-numeric series value, not the zero the claim promises (a value
treated as zero would be displayed as the default-formatted `0`). -/
theorem tooltip_empty_for_nonNumeric :
    getSeriesValue defaultChartConfig
        (some ⟨some 0, [( "value", JSVal.other)]⟩) "value" = ""
      ∧ fmtThousands 0 = "0"
      ∧ ( "" : String) ≠ "0" := by
  have h0 : jsRound0 0 = 0 := by norm_num [jsRound0]
  refine ⟨rfl, ?_, by decide⟩
  simp only [fmtThousands, h0]
  decide

/-- Claim C8: a drawing failure inside `renderChart` is caught by
`updateChart` and replaced by the error placeholder; the svg is cleared
before every draw attempt, so the outcome never depends on what was
drawn before; and the instance stays usable — the next update with
inputs whose draw succeeds renders the chart. -/
theorem drawFailure_caught_and_recoverable (data data2 : List DataPoint)
    (cfg cfg2 : AreaChartConfig) (w h w2 h2 : ℚ)
    (hn : 2 ≤ data.length) (hw : 0 < w) (hh : 0 < h)
    (hfail : ∃ e, renderChart data cfg = .error e)
    (hn2 : 2 ≤ data2.length) (hw2 : 0 < w2) (hh2 : 0 < h2) :
    (∀ prev, updateChart (some prev) data cfg w h = some .errorMsg)
      ∧ (∀ prev prev2, updateChart (some prev) data cfg w h
          = updateChart (some prev2) data cfg w h)
      ∧ (∀ prev g, renderChart data2 cfg2 = .ok g →
          updateChart (some prev) data2 cfg2 w2 h2 = some (.chart g)) := by
  obtain ⟨e, he⟩ := hfail
  refine ⟨?_, ?_, ?_⟩
  · intro prev
    simp only [updateChart, he]
    rw [if_neg (by omega), if_neg (by push_neg; constructor <;> linarith)]
  · intro prev prev2
    rfl
  · intro prev g hg
    simp only [updateChart, hg]
    rw [if_neg (by omega), if_neg (by push_neg; constructor <;> linarith)]

/-- Dataset whose two points both carry an invalid date, making
`renderChart` throw on the date extent. -/
def badDateData : List DataPoint :=
  [⟨none, [( "value", .num 1)]⟩, ⟨none, [( "value", .num 2)]⟩]

/-- Witness for C8 at concrete inputs: the all-invalid-dates dataset
makes the draw fail and shows the error placeholder, and the
counterexample dataset then renders fine. -/
theorem drawFailure_caught_witness :
    (∀ prev, updateChart (some prev) badDateData defaultChartConfig 100 100
        = some .errorMsg)
      ∧ (∀ prev prev2, updateChart (some prev) badDateData defaultChartConfig 100 100
          = updateChart (some prev2) badDateData defaultChartConfig 100 100)
      ∧ (∀ prev g, renderChart [cexPointA, cexPointB] defaultChartConfig = .ok g →
          updateChart (some prev) [cexPointA, cexPointB] defaultChartConfig 100 100
            = some (.chart g)) :=
  drawFailure_caught_and_recoverable badDateData [cexPointA, cexPointB]
    defaultChartConfig defaultChartConfig 100 100 100 100
    (by decide) (by norm_num) (by norm_num) ⟨invalidDateExtentMsg, rfl⟩
    (by decide) (by norm_num) (by norm_num)

/-- Claim C9: a resize whose measured rect leaves no positive plot area
clamps both computed dimensions to at least zero, draws no chart
geometry and raises no error (the draw routine is skipped). -/
theorem resize_nonpositive_safe (svg : Display) (data : List DataPoint)
    (cfg : AreaChartConfig) (rectW rectH : ℚ)
    (hdim : rectW ≤ cfg.margin.left + cfg.margin.right
        ∨ rectH ≤ cfg.margin.top + cfg.margin.bottom) :
    ∃ w h out, handleResize (some svg) data cfg rectW rectH = some ((w, h), out)
      ∧ 0 ≤ w ∧ 0 ≤ h ∧ (w ≤ 0 ∨ h ≤ 0)
      ∧ (∀ g, out ≠ some (.chart g)) ∧ out ≠ some .errorMsg := by
  refine ⟨max 0 (rectW - cfg.margin.left - cfg.margin.right),
    max 0 (rectH - cfg.margin.top - cfg.margin.bottom),
    updateChart (some svg) data cfg
      (max 0 (rectW - cfg.margin.left - cfg.margin.right))
      (max 0 (rectH - cfg.margin.top - cfg.margin.bottom)),
    rfl, le_max_left 0 _, le_max_left 0 _, ?_, ?_, ?_⟩
  · rcases hdim with hd | hd
    · left
      apply max_le le_rfl
      linarith
    · right
      apply max_le le_rfl
      linarith
  · intro g
    simp only [updateChart]
    by_cases h2 : data.length < 2
    · rw [if_pos h2]
      simp
    · rw [if_neg h2, if_pos ?_]
      · simp
      · rcases hdim with hd | hd
        · exact Or.inl (max_le le_rfl (by linarith))
        · exact Or.inr (max_le le_rfl (by linarith))
  · simp only [updateChart]
    by_cases h2 : data.length < 2
    · rw [if_pos h2]
      simp
    · rw [if_neg h2, if_pos ?_]
      · simp
      · rcases hdim with hd | hd
        · exact Or.inl (max_le le_rfl (by linarith))
        · exact Or.inr (max_le le_rfl (by linarith))

/-- Witness for C9: a 10-pixel-wide rect under the default margins
(left 50 + right 30) yields a clamped zero width and no drawn chart. -/
theorem resize_nonpositive_safe_witness :
    ∃ w h out, handleResize (some .blank) [cexPointA, cexPointB]
        defaultChartConfig 10 500 = some ((w, h), out)
      ∧ 0 ≤ w ∧ 0 ≤ h ∧ (w ≤ 0 ∨ h ≤ 0)
      ∧ (∀ g, out ≠ some (.chart g)) ∧ out ≠ some .errorMsg :=
  resize_nonpositive_safe .blank [cexPointA, cexPointB] defaultChartConfig
    10 500 (Or.inl (by norm_num [defaultChartConfig]))

/-- Claim C10: in `updateChart` the insufficient-data guard runs before
the dimension guard — fewer than two points always render the
"No data available" placeholder, whatever the dimensions; two or more
points with a non-positive dimension leave a cleared svg with no
placeholder, no error state and no chart. -/
theorem updateChart_guard_order (prev : Display) (data : List DataPoint)
    (cfg : AreaChartConfig) (w h : ℚ) :
    (data.length < 2 → updateChart (some prev) data cfg w h = some .empty)
      ∧ (2 ≤ data.length → (w ≤ 0 ∨ h ≤ 0) →
          updateChart (some prev) data cfg w h = some .blank) := by
  constructor
  · intro hlt
    simp only [updateChart]
    rw [if_pos hlt]
  · intro hge hdim
    simp only [updateChart]
    rw [if_neg (by omega), if_pos hdim]

/-- Correctness of the bisector loop: on a predicate that is downward
closed over `[lo, hi)` — true entries precede false ones, as for the
comparison `date < x0` over a date-sorted array — the loop returns the
first index of `[lo, hi]` at which the predicate fails. -/
theorem bisectLoop_spec (P : Nat → Bool) :
    ∀ fuel lo hi, lo ≤ hi → hi - lo ≤ fuel →
      (∀ j k, lo ≤ j → j ≤ k → k < hi → P k = true → P j = true) →
      (∀ j, lo ≤ j → j < bisectLoop fuel P lo hi → P j = true)
        ∧ (∀ j, bisectLoop fuel P lo hi ≤ j → j < hi → P j = false) := by
  intro fuel
  induction fuel with
  | zero =>
    intro lo hi h1 h2 _
    constructor
    · intro j hj1 hj2
      simp only [bisectLoop] at hj2
      omega
    · intro j hj1 hj2
      simp only [bisectLoop] at hj1
      omega
  | succ n ih =>
    intro lo hi h1 h2 hmono
    by_cases hlt : lo < hi
    · cases hp : P ((lo + hi) / 2) with
      | true =>
        have hmid : (lo + hi) / 2 < hi := by omega
        have h := ih ((lo + hi) / 2 + 1) hi (by omega) (by omega)
          (fun j k hj hk hkhi hPk => hmono j k (by omega) hk hkhi hPk)
        simp only [bisectLoop, if_pos hlt, hp, if_true]
        constructor
        · intro j hj1 hj2
          by_cases hjm : j ≤ (lo + hi) / 2
          · exact hmono j ((lo + hi) / 2) hj1 hjm hmid hp
          · exact h.1 j (by omega) hj2
        · exact h.2
      | false =>
        have h := ih lo ((lo + hi) / 2) (by omega) (by omega)
          (fun j k hj hk hkhi hPk => hmono j k hj hk (by omega) hPk)
        simp only [bisectLoop, if_pos hlt, hp, Bool.false_eq_true, if_false]
        constructor
        · exact h.1
        · intro j hj1 hj2
          by_cases hjm : j < (lo + hi) / 2
          · exact h.2 j hj1 hjm
          · cases hPj : P j with
            | false => rfl
            | true =>
              have hm := hmono ((lo + hi) / 2) j (by omega) (by omega) hj2 hPj
              rw [hp] at hm
              exact absurd hm (by simp)
    · simp only [bisectLoop, if_neg hlt]
      constructor
      · intro j hj1 hj2
        omega
      · intro j hj1 hj2
        omega

/-- Value of the bisector's comparison at an in-range index of a
dataset with valid dates. -/
theorem bisectPred_eq (data : List DataPoint) (x0 : Int)
    (hvalid : ∀ d ∈ data, d.date.isSome = true)
    (j : Nat) (hj : j < data.length) :
    bisectPred data x0 j = decide (ptTime (data.get ⟨j, hj⟩) < x0) := by
  obtain ⟨t, ht⟩ := Option.isSome_iff_exists.mp
    (hvalid (data.get ⟨j, hj⟩) (List.get_mem data j hj))
  unfold bisectPred
  rw [List.get?_eq_get hj]
  dsimp only
  rw [ht]
  simp only [jsDateLt, ptTime]
  have ht2 : data[j].date = some t := ht
  simp [ht2]

/-- Downward closure of the bisector's comparison over a date-sorted
dataset with valid dates. -/
theorem bisectPred_mono (data : List DataPoint) (x0 : Int)
    (hvalid : ∀ d ∈ data, d.date.isSome = true)
    (hsorted : List.Pairwise (fun a b => ptTime a ≤ ptTime b) data) :
    ∀ j k, 1 ≤ j → j ≤ k → k < data.length →
      bisectPred data x0 k = true → bisectPred data x0 j = true := by
  intro j k _ hjk hk hPk
  have hj : j < data.length := by omega
  rw [bisectPred_eq data x0 hvalid k hk] at hPk
  rw [bisectPred_eq data x0 hvalid j hj]
  have hle : ptTime (data.get ⟨j, hj⟩) ≤ ptTime (data.get ⟨k, hk⟩) := by
    rcases Nat.lt_or_ge j k with hlt | hge
    · exact List.pairwise_iff_get.mp hsorted ⟨j, hj⟩ ⟨k, hk⟩ hlt
    · have : j = k := by omega
      subst this
      exact le_refl _
  simp only [decide_eq_true_eq] at hPk ⊢
  omega

/-- Characterisation of the source's bisection index: every index left
of it compares below `x0`, every index right of it (within range) does
not. -/
theorem dateBisectLeft_spec (data : List DataPoint) (x0 : Int)
    (hne : data ≠ [])
    (hvalid : ∀ d ∈ data, d.date.isSome = true)
    (hsorted : List.Pairwise (fun a b => ptTime a ≤ ptTime b) data) :
    (∀ j, 1 ≤ j → j < dateBisectLeft data x0 →
        bisectPred data x0 j = true)
      ∧ (∀ j, dateBisectLeft data x0 ≤ j → j < data.length →
          bisectPred data x0 j = false) := by
  have hpos : 0 < data.length := List.length_pos.mpr hne
  exact bisectLoop_spec (bisectPred data x0) (data.length + 1) 1 data.length
    (by omega) (by omega) (bisectPred_mono data x0 hvalid hsorted)

/-- Claim C3: over a dataset sorted ascending by date (with valid
dates), nearest-point lookup returns the first point for a query date
before the first point's date, the last point for a query date after
the last point's date, and for a query date strictly between two
consecutive points' dates whichever of the two is closer in absolute
time, with ties going to the earlier point. -/
theorem nearestPoint_correct (data : List DataPoint) (x0 : Int)
    (hn : 2 ≤ data.length)
    (hvalid : ∀ d ∈ data, d.date.isSome = true)
    (hsorted : List.Pairwise (fun a b => ptTime a ≤ ptTime b) data) :
    (∀ d0, data.get? 0 = some d0 → x0 < ptTime d0 →
        nearestPoint data x0 = some d0)
      ∧ (∀ dl, data.get? (data.length - 1) = some dl → ptTime dl < x0 →
          nearestPoint data x0 = some dl)
      ∧ (∀ k a b, data.get? k = some a → data.get? (k + 1) = some b →
          ptTime a < x0 → x0 < ptTime b →
          nearestPoint data x0
            = some (if x0 - ptTime a ≤ ptTime b - x0 then a else b)) := by
  have hne : data ≠ [] := by
    intro h
    rw [h] at hn
    simp at hn
  obtain ⟨hr1, hr2⟩ := dateBisectLeft_bounds data x0 hne
  have hspec := dateBisectLeft_spec data x0 hne hvalid hsorted
  have hPtrue : ∀ j (hj : j < data.length), 1 ≤ j →
      j < dateBisectLeft data x0 → ptTime (data.get ⟨j, hj⟩) < x0 := by
    intro j hj h1 h2
    have h := hspec.1 j h1 h2
    rw [bisectPred_eq data x0 hvalid j hj] at h
    exact of_decide_eq_true h
  have hPfalse : ∀ j (hj : j < data.length), dateBisectLeft data x0 ≤ j →
      x0 ≤ ptTime (data.get ⟨j, hj⟩) := by
    intro j hj h1
    have h := hspec.2 j h1 hj
    rw [bisectPred_eq data x0 hvalid j hj] at h
    have h2 := of_decide_eq_false h
    omega
  have hsortedIdx : ∀ (i j : Nat) (hi : i < data.length)
      (hj : j < data.length), i ≤ j →
      ptTime (data.get ⟨i, hi⟩) ≤ ptTime (data.get ⟨j, hj⟩) := by
    intro i j hi hj hij
    rcases Nat.lt_or_ge i j with hlt | hge
    · exact List.pairwise_iff_get.mp hsorted ⟨i, hi⟩ ⟨j, hj⟩
        (Fin.mk_lt_mk.mpr hlt)
    · have heq : i = j := by omega
      subst heq
      exact le_refl _
  have hdate : ∀ d ∈ data, d.date = some (ptTime d) := by
    intro d hd
    obtain ⟨t, ht⟩ := Option.isSome_iff_exists.mp (hvalid d hd)
    rw [ht]
    simp [ptTime, ht]
  have hgt_eq : ∀ a b, a ∈ data → b ∈ data →
      jsGtDiff x0 a.date b.date
        = decide (ptTime b - x0 < x0 - ptTime a) := by
    intro a b ha hb
    rw [hdate a ha, hdate b hb]
    simp [jsGtDiff]
  refine ⟨?_, ?_, ?_⟩
  · -- query before the first point
    intro d0 hd0 hx
    have h0 : (0 : Nat) < data.length := by omega
    have h1n : 1 < data.length := by omega
    have hd0get : data.get ⟨0, h0⟩ = d0 := by
      rw [List.get?_eq_get h0] at hd0
      exact Option.some_inj.mp hd0
    have hr : dateBisectLeft data x0 = 1 := by
      by_contra hne1
      have h1r : 1 < dateBisectLeft data x0 := by omega
      have ht1 := hPtrue 1 h1n (le_refl 1) h1r
      have hle := hsortedIdx 0 1 h0 h1n (by omega)
      rw [hd0get] at hle
      omega
    simp only [nearestPoint, hr]
    have h11 : (1 : Nat) - 1 = 0 := rfl
    rw [h11, hd0, List.get?_eq_get h1n]
    dsimp only
    have hcond : jsGtDiff x0 d0.date (data.get ⟨1, h1n⟩).date = false := by
      rw [hgt_eq d0 (data.get ⟨1, h1n⟩) (List.get?_mem hd0)
        (List.get_mem data 1 h1n)]
      have hle := hsortedIdx 0 1 h0 h1n (by omega)
      rw [hd0get] at hle
      simp only [decide_eq_false_iff_not]
      omega
    rw [hcond]
    simp
  · -- query after the last point
    intro dl hdl hx
    have hn1 : data.length - 1 < data.length := by omega
    have hdlget : data.get ⟨data.length - 1, hn1⟩ = dl := by
      rw [List.get?_eq_get hn1] at hdl
      exact Option.some_inj.mp hdl
    have hr : dateBisectLeft data x0 = data.length := by
      by_contra hne2
      have hrlt : dateBisectLeft data x0 < data.length := by omega
      have hf := hPfalse (dateBisectLeft data x0) hrlt (le_refl _)
      have hle := hsortedIdx (dateBisectLeft data x0) (data.length - 1)
        hrlt hn1 (by omega)
      rw [hdlget] at hle
      omega
    simp only [nearestPoint, hr]
    rw [hdl, List.get?_eq_none.mpr (le_refl data.length)]
  · -- query strictly between two consecutive points
    intro k a b hka hkb hxa hxb
    have hkn : k + 1 < data.length := by
      have h := List.get?_eq_some.mp hkb
      exact h.1
    have hk : k < data.length := by omega
    have hgeta : data.get ⟨k, hk⟩ = a := by
      rw [List.get?_eq_get hk] at hka
      exact Option.some_inj.mp hka
    have hgetb : data.get ⟨k + 1, hkn⟩ = b := by
      rw [List.get?_eq_get hkn] at hkb
      exact Option.some_inj.mp hkb
    have hr : dateBisectLeft data x0 = k + 1 := by
      by_contra hne3
      rcases Nat.lt_or_ge (dateBisectLeft data x0) (k + 1) with hlt | hge
      · have hf := hPfalse k hk (by omega)
        rw [hgeta] at hf
        omega
      · have hgt : k + 1 < dateBisectLeft data x0 := by omega
        have ht := hPtrue (k + 1) hkn (by omega) hgt
        rw [hgetb] at ht
        omega
    simp only [nearestPoint, hr]
    have hk1 : k + 1 - 1 = k := rfl
    rw [hk1, hka, hkb]
    dsimp only
    rw [hgt_eq a b (List.get?_mem hka) (List.get?_mem hkb)]
    by_cases hc : x0 - ptTime a ≤ ptTime b - x0
    · have hfalse : decide (ptTime b - x0 < x0 - ptTime a) = false := by
        simp only [decide_eq_false_iff_not]
        omega
      rw [hfalse, if_pos hc]
      simp
    · have htrue : decide (ptTime b - x0 < x0 - ptTime a) = true := by
        simp only [decide_eq_true_eq]
        omega
      rw [htrue, if_neg hc]
      simp

/-- Three-point sorted dataset for the nearest-point witness. -/
def wNearData : List DataPoint :=
  [⟨some 0, []⟩, ⟨some 10, []⟩, ⟨some 100, []⟩]

/-- Witness for C3 at a concrete sorted dataset and query date. -/
theorem nearestPoint_correct_witness :
    (∀ d0, wNearData.get? 0 = some d0 → (3 : Int) < ptTime d0 →
        nearestPoint wNearData 3 = some d0)
      ∧ (∀ dl, wNearData.get? (wNearData.length - 1) = some dl →
          ptTime dl < 3 → nearestPoint wNearData 3 = some dl)
      ∧ (∀ k a b, wNearData.get? k = some a →
          wNearData.get? (k + 1) = some b →
          ptTime a < 3 → (3 : Int) < ptTime b →
          nearestPoint wNearData 3
            = some (if (3 : Int) - ptTime a ≤ ptTime b - 3 then a else b)) :=
  nearestPoint_correct wNearData 3 (by decide) (by decide) (by decide)

/-- Unfolding of the per-point maximum over a nonempty key list. -/
theorem pointSeriesMax_cons (d : DataPoint) (k : String) (ks : List String) :
    pointSeriesMax d (k :: ks)
      = jsMax (some (getValue d k)) (pointSeriesMax d ks) := rfl

/-- Unfolding of the per-point minimum over a nonempty key list. -/
theorem pointSeriesMin_cons (d : DataPoint) (k : String) (ks : List String) :
    pointSeriesMin d (k :: ks)
      = jsMin (some (getValue d k)) (pointSeriesMin d ks) := rfl

/-- Over a nonempty key list, `Math.max` of the series values is finite,
bounds every value, and is attained. -/
theorem pointSeriesMax_spec (d : DataPoint) :
    ∀ ks : List String, ks ≠ [] →
      ∃ q, pointSeriesMax d ks = some q
        ∧ (∀ k ∈ ks, getValue d k ≤ q)
        ∧ ∃ k ∈ ks, getValue d k = q := by
  intro ks
  induction ks with
  | nil =>
    intro h
    exact absurd rfl h
  | cons k rest ih =>
    intro _
    by_cases hrest : rest = []
    · subst hrest
      exact ⟨getValue d k, rfl, by simp, by simp⟩
    · obtain ⟨q, hq, hub, hmem⟩ := ih hrest
      refine ⟨max (getValue d k) q, ?_, ?_, ?_⟩
      · rw [pointSeriesMax_cons, hq]
        rfl
      · intro k2 hk2
        rcases List.mem_cons.mp hk2 with h | h
        · subst h
          exact le_max_left _ _
        · exact le_trans (hub k2 h) (le_max_right _ _)
      · rcases le_total (getValue d k) q with hle | hle
        · obtain ⟨k2, hk2, hkq⟩ := hmem
          refine ⟨k2, List.mem_cons_of_mem k hk2, ?_⟩
          rw [hkq]
          exact (max_eq_right hle).symm
        · exact ⟨k, List.mem_cons_self k rest, (max_eq_left hle).symm⟩

/-- Over a nonempty key list, `Math.min` of the series values is finite,
is below every value, and is attained. -/
theorem pointSeriesMin_spec (d : DataPoint) :
    ∀ ks : List String, ks ≠ [] →
      ∃ q, pointSeriesMin d ks = some q
        ∧ (∀ k ∈ ks, q ≤ getValue d k)
        ∧ ∃ k ∈ ks, getValue d k = q := by
  intro ks
  induction ks with
  | nil =>
    intro h
    exact absurd rfl h
  | cons k rest ih =>
    intro _
    by_cases hrest : rest = []
    · subst hrest
      exact ⟨getValue d k, rfl, by simp, by simp⟩
    · obtain ⟨q, hq, hlb, hmem⟩ := ih hrest
      refine ⟨min (getValue d k) q, ?_, ?_, ?_⟩
      · rw [pointSeriesMin_cons, hq]
        rfl
      · intro k2 hk2
        rcases List.mem_cons.mp hk2 with h | h
        · subst h
          exact min_le_left _ _
        · exact le_trans (min_le_right _ _) (hlb k2 h)
      · rcases le_total (getValue d k) q with hle | hle
        · exact ⟨k, List.mem_cons_self k rest, (min_eq_left hle).symm⟩
        · obtain ⟨k2, hk2, hkq⟩ := hmem
          refine ⟨k2, List.mem_cons_of_mem k hk2, ?_⟩
          rw [hkq]
          exact (min_eq_right hle).symm

/-- The d3 maximum over a nonempty dataset of per-point maxima is
finite, bounds every series value at every point, and is attained. -/
theorem yMaxOf_spec (data : List DataPoint) (ks : List String)
    (hd : data ≠ []) (hks : ks ≠ []) :
    ∃ M, yMaxOf data ks = some M
      ∧ (∀ d ∈ data, ∀ k ∈ ks, getValue d k ≤ M)
      ∧ ∃ d ∈ data, ∃ k ∈ ks, getValue d k = M := by
  have hif : yMaxOf data ks
      = data.foldr (fun d m => jsMax (pointSeriesMax d ks) m) none := by
    unfold yMaxOf
    rw [if_neg (by simpa using hd)]
  rw [hif]
  clear hif
  induction data with
  | nil => exact absurd rfl hd
  | cons d rest ih =>
    obtain ⟨q, hq, hub, hmem⟩ := pointSeriesMax_spec d ks hks
    by_cases hrest : rest = []
    · subst hrest
      simp only [List.foldr_cons, List.foldr_nil]
      rw [hq]
      refine ⟨q, rfl, ?_, ?_⟩
      · intro d2 hd2 k hk
        rw [List.mem_singleton] at hd2
        subst hd2
        exact hub k hk
      · obtain ⟨k, hk, hkq⟩ := hmem
        exact ⟨d, List.mem_singleton_self d, k, hk, hkq⟩
    · obtain ⟨M, hM, hub2, hmem2⟩ := ih hrest
      simp only [List.foldr_cons] at hM ⊢
      rw [hq, hM]
      refine ⟨max q M, rfl, ?_, ?_⟩
      · intro d2 hd2 k hk
        rcases List.mem_cons.mp hd2 with h | h
        · subst h
          exact le_trans (hub k hk) (le_max_left _ _)
        · exact le_trans (hub2 d2 h k hk) (le_max_right _ _)
      · rcases le_total q M with hle | hle
        · obtain ⟨d2, hd2, k, hk, hkq⟩ := hmem2
          refine ⟨d2, List.mem_cons_of_mem d hd2, k, hk, ?_⟩
          rw [hkq]
          exact (max_eq_right hle).symm
        · obtain ⟨k, hk, hkq⟩ := hmem
          refine ⟨d, List.mem_cons_self d rest, k, hk, ?_⟩
          rw [hkq]
          exact (max_eq_left hle).symm

/-- The d3 minimum over a nonempty dataset of per-point minima is
finite, is below every series value at every point, and is attained. -/
theorem yMinOf_spec (data : List DataPoint) (ks : List String)
    (hd : data ≠ []) (hks : ks ≠ []) :
    ∃ m, yMinOf data ks = some m
      ∧ (∀ d ∈ data, ∀ k ∈ ks, m ≤ getValue d k)
      ∧ ∃ d ∈ data, ∃ k ∈ ks, getValue d k = m := by
  have hif : yMinOf data ks
      = data.foldr (fun d m => jsMin (pointSeriesMin d ks) m) none := by
    unfold yMinOf
    rw [if_neg (by simpa using hd)]
  rw [hif]
  clear hif
  induction data with
  | nil => exact absurd rfl hd
  | cons d rest ih =>
    obtain ⟨q, hq, hlb, hmem⟩ := pointSeriesMin_spec d ks hks
    by_cases hrest : rest = []
    · subst hrest
      simp only [List.foldr_cons, List.foldr_nil]
      rw [hq]
      refine ⟨q, rfl, ?_, ?_⟩
      · intro d2 hd2 k hk
        rw [List.mem_singleton] at hd2
        subst hd2
        exact hlb k hk
      · obtain ⟨k, hk, hkq⟩ := hmem
        exact ⟨d, List.mem_singleton_self d, k, hk, hkq⟩
    · obtain ⟨m, hm, hlb2, hmem2⟩ := ih hrest
      simp only [List.foldr_cons] at hm ⊢
      rw [hq, hm]
      refine ⟨min q m, rfl, ?_, ?_⟩
      · intro d2 hd2 k hk
        rcases List.mem_cons.mp hd2 with h | h
        · subst h
          exact le_trans (min_le_left _ _) (hlb k hk)
        · exact le_trans (min_le_right _ _) (hlb2 d2 h k hk)
      · rcases le_total q m with hle | hle
        · obtain ⟨k, hk, hkq⟩ := hmem
          refine ⟨d, List.mem_cons_self d rest, k, hk, ?_⟩
          rw [hkq]
          exact (min_eq_left hle).symm
        · obtain ⟨d2, hd2, k, hk, hkq⟩ := hmem2
          refine ⟨d2, List.mem_cons_of_mem d hd2, k, hk, ?_⟩
          rw [hkq]
          exact (min_eq_right hle).symm

/-- Properties of the nice-number rounding: for positive `v` it is a
positive integer multiple of `10 ^ floor(log10 v)` lying at most one
such unit below `v`. -/
theorem niceFloor_spec (v : ℚ) (hv : 0 < v) :
    niceFloor v ≤ v
      ∧ v < niceFloor v + (10 : ℚ) ^ (Int.log 10 v)
      ∧ (∃ z : ℤ, niceFloor v = (z : ℚ) * (10 : ℚ) ^ (Int.log 10 v))
      ∧ 0 < niceFloor v := by
  have hmag : (0 : ℚ) < (10 : ℚ) ^ (Int.log 10 v) :=
    zpow_pos (by norm_num) _
  have hmagle : (10 : ℚ) ^ (Int.log 10 v) ≤ v := by
    have h := Int.zpow_log_le_self (R := ℚ) (b := 10) (by norm_num) hv
    push_cast at h
    exact h
  have hfloor1 : (1 : ℤ) ≤ ⌊v / (10 : ℚ) ^ (Int.log 10 v)⌋ := by
    rw [Int.le_floor]
    push_cast
    rw [le_div_iff₀ hmag]
    linarith
  refine ⟨?_, ?_, ⟨⌊v / (10 : ℚ) ^ (Int.log 10 v)⌋, rfl⟩, ?_⟩
  · show (⌊v / (10 : ℚ) ^ (Int.log 10 v)⌋ : ℚ) * (10 : ℚ) ^ (Int.log 10 v) ≤ v
    calc (⌊v / (10 : ℚ) ^ (Int.log 10 v)⌋ : ℚ) * (10 : ℚ) ^ (Int.log 10 v)
        ≤ v / (10 : ℚ) ^ (Int.log 10 v) * (10 : ℚ) ^ (Int.log 10 v) :=
          mul_le_mul_of_nonneg_right (Int.floor_le _) (le_of_lt hmag)
      _ = v := div_mul_cancel₀ v (ne_of_gt hmag)
  · show v < (⌊v / (10 : ℚ) ^ (Int.log 10 v)⌋ : ℚ) * (10 : ℚ) ^ (Int.log 10 v)
        + (10 : ℚ) ^ (Int.log 10 v)
    have h := Int.lt_floor_add_one (v / (10 : ℚ) ^ (Int.log 10 v))
    rw [div_lt_iff₀ hmag] at h
    linarith [h]
  · show 0 < (⌊v / (10 : ℚ) ^ (Int.log 10 v)⌋ : ℚ) * (10 : ℚ) ^ (Int.log 10 v)
    have : (1 : ℚ) ≤ (⌊v / (10 : ℚ) ^ (Int.log 10 v)⌋ : ℚ) := by
      exact_mod_cast hfloor1
    nlinarith

/-- Value of the spec's worked rounding example: `Int.log` of 267000. -/
theorem log_267000 : Int.log 10 (267000 : ℚ) = 5 := by
  rw [Int.log_ofNat]
  have h : Nat.log 10 267000 = 5 := by
    refine Nat.log_eq_of_pow_le_of_lt_pow ?_ ?_ <;> norm_num
  rw [h]
  rfl

/-- The spec's worked example: a floor of 267000 (magnitude `10^5`)
rounds down to 200000. -/
theorem niceFloor_267000 : niceFloor 267000 = 200000 := by
  show (⌊(267000 : ℚ) / (10 : ℚ) ^ (Int.log 10 (267000 : ℚ))⌋ : ℚ)
      * (10 : ℚ) ^ (Int.log 10 (267000 : ℚ)) = 200000
  rw [log_267000]
  norm_num

/-- Claim C4: for a dataset of at least two points and a nonempty series
list, the vertical domain is `[floor, 1.05 × M]` where `M` is the exact
maximum value across all series and all points; the floor is `0` unless
`autoMinY` is set and the data minimum `m` is positive, in which case it
is `m` minus 10% of the value range, clamped to `≥ 0`, and — when still
positive — rounded down to a multiple of `10 ^ floor(log10 ·)` lying at
most one such unit below it; the floor is never negative; and 267000
rounds down to 200000. -/
theorem yDomain_correct (data : List DataPoint) (cfg : AreaChartConfig)
    (hn : 2 ≤ data.length) (hs : cfg.series ≠ []) :
    ∃ lo M m,
      yDomainOf data cfg = some (lo, M * (21 / 20))
        ∧ (∀ d ∈ data, ∀ s ∈ cfg.series, getValue d s.key ≤ M)
        ∧ (∃ d ∈ data, ∃ s ∈ cfg.series, getValue d s.key = M)
        ∧ (∀ d ∈ data, ∀ s ∈ cfg.series, m ≤ getValue d s.key)
        ∧ (∃ d ∈ data, ∃ s ∈ cfg.series, getValue d s.key = m)
        ∧ 0 ≤ lo
        ∧ (cfg.autoMinY = false → lo = 0)
        ∧ (cfg.autoMinY = true → m ≤ 0 → lo = 0)
        ∧ (cfg.autoMinY = true → 0 < m →
            (max 0 (m - (M - m) * (1 / 10)) = 0 → lo = 0)
              ∧ (0 < max 0 (m - (M - m) * (1 / 10)) →
                  lo = niceFloor (max 0 (m - (M - m) * (1 / 10)))
                    ∧ lo ≤ max 0 (m - (M - m) * (1 / 10))
                    ∧ max 0 (m - (M - m) * (1 / 10)) < lo
                        + (10 : ℚ) ^ (Int.log 10 (max 0 (m - (M - m) * (1 / 10))))
                    ∧ ∃ z : ℤ, lo = (z : ℚ)
                        * (10 : ℚ) ^ (Int.log 10 (max 0 (m - (M - m) * (1 / 10))))))
        ∧ niceFloor 267000 = 200000 := by
  have hdne : data ≠ [] := by
    intro h
    rw [h] at hn
    simp at hn
  have hkeys : seriesKeys cfg ≠ [] := by
    intro h
    exact hs (List.map_eq_nil_iff.mp h)
  obtain ⟨M, hM, hMub, hMmem⟩ := yMaxOf_spec data (seriesKeys cfg) hdne hkeys
  obtain ⟨m, hm, hmlb, hmmem⟩ := yMinOf_spec data (seriesKeys cfg) hdne hkeys
  have hub2 : ∀ d ∈ data, ∀ s ∈ cfg.series, getValue d s.key ≤ M := by
    intro d hd s hsm
    exact hMub d hd s.key (List.mem_map_of_mem _ hsm)
  have hmem2 : ∃ d ∈ data, ∃ s ∈ cfg.series, getValue d s.key = M := by
    obtain ⟨d, hd, k, hk, hkq⟩ := hMmem
    obtain ⟨s, hsm, hkey⟩ := List.mem_map.mp hk
    refine ⟨d, hd, s, hsm, ?_⟩
    rw [hkey]
    exact hkq
  have hlb2 : ∀ d ∈ data, ∀ s ∈ cfg.series, m ≤ getValue d s.key := by
    intro d hd s hsm
    exact hmlb d hd s.key (List.mem_map_of_mem _ hsm)
  have hmem3 : ∃ d ∈ data, ∃ s ∈ cfg.series, getValue d s.key = m := by
    obtain ⟨d, hd, k, hk, hkq⟩ := hmmem
    obtain ⟨s, hsm, hkey⟩ := List.mem_map.mp hk
    refine ⟨d, hd, s, hsm, ?_⟩
    rw [hkey]
    exact hkq
  refine ⟨yAxisMinOf cfg.autoMinY m M, M, m, ?_, hub2, hmem2, hlb2, hmem3,
    ?_, ?_, ?_, ?_, niceFloor_267000⟩
  · unfold yDomainOf
    rw [hM, hm]
  · unfold yAxisMinOf
    by_cases hauto : (cfg.autoMinY && decide (0 < m)) = true
    · rw [if_pos hauto]
      dsimp only
      by_cases hv : 0 < max 0 (m - (M - m) * (1 / 10))
      · rw [if_pos hv]
        exact le_of_lt (niceFloor_spec _ hv).2.2.2
      · rw [if_neg hv]
        exact le_max_left 0 _
    · rw [if_neg hauto]
  · intro hfalse
    unfold yAxisMinOf
    rw [hfalse]
    simp
  · intro htrue hm0
    unfold yAxisMinOf
    rw [htrue]
    have hd0 : decide (0 < m) = false := by
      simp only [decide_eq_false_iff_not]
      exact not_lt.mpr hm0
    rw [hd0]
    simp
  · intro htrue hmpos
    have hdt : decide (0 < m) = true := by
      simp only [decide_eq_true_eq]
      exact hmpos
    constructor
    · intro hv0
      unfold yAxisMinOf
      rw [htrue, hdt]
      dsimp only
      rw [hv0]
      simp
    · intro hvpos
      obtain ⟨hle, hlt, hmult, hpos⟩ := niceFloor_spec _ hvpos
      have hres : yAxisMinOf cfg.autoMinY m M
          = niceFloor (max 0 (m - (M - m) * (1 / 10))) := by
        unfold yAxisMinOf
        rw [htrue, hdt]
        dsimp only
        rw [if_pos hvpos]
        simp
      rw [hres]
      exact ⟨rfl, hle, by linarith [hlt], hmult⟩

/-- Two-point single-series dataset for the domain witness. -/
def wDomData : List DataPoint :=
  [⟨some 0, [( "v", .num 100)]⟩, ⟨some 86400000, [( "v", .num 200)]⟩]

/-- Single-series configuration for the domain witness. -/
def wDomCfg : AreaChartConfig :=
  ⟨[⟨ "V", "#000000", "v"⟩], "%b %d", none, true,
    ⟨20, 30, 40, 50⟩, none, false, true, true⟩

/-- Witness for C4 at a concrete dataset and configuration. -/
theorem yDomain_correct_witness :
    ∃ lo M m,
      yDomainOf wDomData wDomCfg = some (lo, M * (21 / 20))
        ∧ (∀ d ∈ wDomData, ∀ s ∈ wDomCfg.series, getValue d s.key ≤ M)
        ∧ (∃ d ∈ wDomData, ∃ s ∈ wDomCfg.series, getValue d s.key = M)
        ∧ (∀ d ∈ wDomData, ∀ s ∈ wDomCfg.series, m ≤ getValue d s.key)
        ∧ (∃ d ∈ wDomData, ∃ s ∈ wDomCfg.series, getValue d s.key = m)
        ∧ 0 ≤ lo
        ∧ (wDomCfg.autoMinY = false → lo = 0)
        ∧ (wDomCfg.autoMinY = true → m ≤ 0 → lo = 0)
        ∧ (wDomCfg.autoMinY = true → 0 < m →
            (max 0 (m - (M - m) * (1 / 10)) = 0 → lo = 0)
              ∧ (0 < max 0 (m - (M - m) * (1 / 10)) →
                  lo = niceFloor (max 0 (m - (M - m) * (1 / 10)))
                    ∧ lo ≤ max 0 (m - (M - m) * (1 / 10))
                    ∧ max 0 (m - (M - m) * (1 / 10)) < lo
                        + (10 : ℚ) ^ (Int.log 10 (max 0 (m - (M - m) * (1 / 10))))
                    ∧ ∃ z : ℤ, lo = (z : ℚ)
                        * (10 : ℚ) ^ (Int.log 10 (max 0 (m - (M - m) * (1 / 10))))))
        ∧ niceFloor 267000 = 200000 :=
  yDomain_correct wDomData wDomCfg (by decide) (by decide)

/-- First-match characterisation of `List.find?`: either some index is
the first whose test passes and `find?` returns its element, or the
test fails everywhere and `find?` is `none`. -/
theorem find?_first_match {α : Type} (p : α → Bool) (l : List α) :
    (∃ i, ∃ hi : i < l.length, p (l.get ⟨i, hi⟩) = true
        ∧ (∀ j (hj : j < l.length), j < i → p (l.get ⟨j, hj⟩) = false)
        ∧ l.find? p = some (l.get ⟨i, hi⟩))
      ∨ ((∀ a ∈ l, p a = false) ∧ l.find? p = none) := by
  induction l with
  | nil =>
    right
    exact ⟨by simp, rfl⟩
  | cons a rest ih =>
    cases hp : p a with
    | true =>
      left
      refine ⟨0, by simp, hp, ?_, ?_⟩
      · intro j hj hj0
        exact absurd hj0 (Nat.not_lt_zero j)
      · exact List.find?_cons_of_pos rest hp
    | false =>
      rcases ih with ⟨i, hi, hpi, hprev, hfind⟩ | ⟨hall, hfind⟩
      · left
        refine ⟨i + 1, by simpa using hi, hpi, ?_, ?_⟩
        · intro j hj hji
          cases j with
          | zero => exact hp
          | succ j2 => exact hprev j2 (by simpa using hj) (by omega)
        · rw [List.find?_cons_of_neg rest (by simp [hp]), hfind]
          rfl
      · right
        refine ⟨?_, ?_⟩
        · intro b hb
          rcases List.mem_cons.mp hb with h | h
          · subst h
            exact hp
          · exact hall b h
        · rw [List.find?_cons_of_neg rest (by simp [hp]), hfind]

/-- Table the planner walks for a span of `timeRangeMs` milliseconds
(the `days`, `months` and `years` of `getOptimalTimeInterval`). -/
def planTable (timeRangeMs : ℚ) : List IntervalEntry :=
  intervalsTable (timeRangeMs / 86400000) (timeRangeMs / 86400000 / 30)
    (timeRangeMs / 86400000 / 365)

/-- Reading of the planner through its table and first-match search. -/
theorem getOptimalTimeInterval_eq (ms mt : ℚ) :
    getOptimalTimeInterval ms mt
      = match (planTable ms).find? (entryFits (ms / 86400000) mt) with
        | some e => (e.interval, e.fmt)
        | none =>
          match (planTable ms).getLast? with
          | some e => (e.interval, e.fmt)
          | none => (.year10, "%Y") := rfl

/-- Claim C5: the tick budget is `max(2, ⌊width / 80⌋)`; the planner
returns the payload of the first table entry whose day-span threshold
and estimated tick count both fit the span and budget, falling back to
the coarsest (10-year) entry when none fits; and for a 10-day span at
800 px (budget 10) it selects the 2-day granularity — estimated tick
count 5 ≤ 10 — while both finer entries fail the eligibility test. -/
theorem tickPlanner_correct :
    (∀ width : ℚ, maxTicksOf width = max 2 ⌊width / 80⌋)
      ∧ (∀ ms mt : ℚ,
          (∃ i, ∃ hi : i < (planTable ms).length,
            entryFits (ms / 86400000) mt ((planTable ms).get ⟨i, hi⟩) = true
              ∧ (∀ j (hj : j < (planTable ms).length), j < i →
                  entryFits (ms / 86400000) mt ((planTable ms).get ⟨j, hj⟩)
                    = false)
              ∧ getOptimalTimeInterval ms mt
                  = (((planTable ms).get ⟨i, hi⟩).interval,
                     ((planTable ms).get ⟨i, hi⟩).fmt))
            ∨ ((∀ e ∈ planTable ms, entryFits (ms / 86400000) mt e = false)
                ∧ getOptimalTimeInterval ms mt = (.year10, "%Y")))
      ∧ maxTicksOf 800 = 10
      ∧ getOptimalTimeInterval 864000000 10 = (.day2, "%b %d")
      ∧ entryFits (864000000 / 86400000) 10
          ((planTable 864000000).get ⟨0, by decide⟩) = false
      ∧ entryFits (864000000 / 86400000) 10
          ((planTable 864000000).get ⟨1, by decide⟩) = false
      ∧ entryFits (864000000 / 86400000) 10
          ((planTable 864000000).get ⟨2, by decide⟩) = true
      ∧ ((planTable 864000000).get ⟨2, by decide⟩).interval = .day2
      ∧ ((planTable 864000000).get ⟨2, by decide⟩).ticksPerUnit = 5
      ∧ ((5 : ℚ) ≤ 10) := by
  refine ⟨fun width => rfl, ?_, by norm_num [maxTicksOf], ?_, ?_, ?_, ?_,
    rfl, ?_, by norm_num⟩
  · intro ms mt
    rcases find?_first_match (entryFits (ms / 86400000) mt) (planTable ms)
      with ⟨i, hi, hpi, hprev, hfind⟩ | ⟨hall, hfind⟩
    · left
      refine ⟨i, hi, hpi, hprev, ?_⟩
      rw [getOptimalTimeInterval_eq, hfind]
    · right
      refine ⟨hall, ?_⟩
      rw [getOptimalTimeInterval_eq, hfind]
      rfl
  · norm_num [getOptimalTimeInterval, intervalsTable, entryFits, daysLe,
      List.find?]
  · show entryFits (864000000 / 86400000) 10 ⟨some 2, .hour4, "%H:%M", 6⟩
        = false
    norm_num [entryFits, daysLe]
  · show entryFits (864000000 / 86400000) 10
        ⟨some 7, .day1, "%b %d", 864000000 / 86400000⟩ = false
    norm_num [entryFits, daysLe]
  · show entryFits (864000000 / 86400000) 10
        ⟨some 14, .day2, "%b %d", 864000000 / 86400000 / 2⟩ = true
    norm_num [entryFits, daysLe]
  · show (864000000 : ℚ) / 86400000 / 2 = 5
    norm_num

/-- Truth of the filter's date comparison: a valid date at or after the
cutoff. -/
theorem jsDateGe_iff (a : Option Int) (b : Int) :
    jsDateGe a b = true ↔ ∃ t, a = some t ∧ b ≤ t := by
  cases a with
  | none => simp [jsDateGe]
  | some t => simp [jsDateGe]

/-- January-1 cutoff: `new Date(year, 0, 1)` is midnight of the civil
date year-01-01. -/
theorem jsDateMs_jan1 (y : Int) :
    jsDateMs y 0 1 = 86400000 * daysFromCivil y 1 1 := by
  have h : Int.emod 0 12 + 1 = 1 := by decide
  simp [jsDateMs, Int.zero_fdiv, h]

/-- Claim C6: `ALL` returns the input unchanged; every option returns a
sublist of the input (order preserved); `2Y`/`1Y` keep exactly the
points dated at or after the same civil day two/one years before now,
and `YTD` exactly those dated at or after January 1 of now's year; for
now = 2025-06-15 the YTD cutoff is 2025-01-01 and the 1Y cutoff is
2024-06-15. -/
theorem filterDataByRange_correct :
    (∀ (data : List DataPoint) (y mo da : Int),
        filterDataByRange data .all y mo da = data
          ∧ (∀ r, (filterDataByRange data r y mo da).Sublist data)
          ∧ (∀ p, p ∈ filterDataByRange data .twoY y mo da ↔
              p ∈ data ∧ ∃ t, p.date = some t ∧ jsDateMs (y - 2) mo da ≤ t)
          ∧ (∀ p, p ∈ filterDataByRange data .oneY y mo da ↔
              p ∈ data ∧ ∃ t, p.date = some t ∧ jsDateMs (y - 1) mo da ≤ t)
          ∧ (∀ p, p ∈ filterDataByRange data .ytd y mo da ↔
              p ∈ data ∧ ∃ t, p.date = some t
                ∧ 86400000 * daysFromCivil y 1 1 ≤ t))
      ∧ jsDateMs 2025 0 1 = 86400000 * daysFromCivil 2025 1 1
      ∧ jsDateMs (2025 - 1) 5 15 = 86400000 * daysFromCivil 2024 6 15 := by
  refine ⟨?_, by decide, by decide⟩
  intro data y mo da
  refine ⟨rfl, ?_, ?_, ?_, ?_⟩
  · intro r
    cases r with
    | all => exact List.Sublist.refl data
    | twoY => exact List.filter_sublist data
    | oneY => exact List.filter_sublist data
    | ytd => exact List.filter_sublist data
  · intro p
    show p ∈ data.filter (fun d => jsDateGe d.date (jsDateMs (y - 2) mo da))
        ↔ _
    rw [List.mem_filter]
    exact and_congr_right (fun _ => jsDateGe_iff p.date (jsDateMs (y - 2) mo da))
  · intro p
    show p ∈ data.filter (fun d => jsDateGe d.date (jsDateMs (y - 1) mo da))
        ↔ _
    rw [List.mem_filter]
    exact and_congr_right (fun _ => jsDateGe_iff p.date (jsDateMs (y - 1) mo da))
  · intro p
    show p ∈ data.filter (fun d => jsDateGe d.date (jsDateMs y 0 1)) ↔ _
    rw [List.mem_filter]
    refine and_congr_right (fun _ => ?_)
    rw [jsDateGe_iff p.date (jsDateMs y 0 1), jsDateMs_jan1]

end D3Demo
